import Mathlib

/-!
Verification development for the FeasibilitAI feasibility simulator
(`src/app.py`).

Embedding conventions:
* Python floats are modelled as exact rationals.  The one value that can
  become IEEE NaN in the program is the IRR returned by
  `numpy_financial.irr`; it is modelled by the two-constructor type
  `PyFloat` (a rational number or NaN).
* `numpy_financial.irr` is an external dependency.  The development does
  not re-implement its root finder; every theorem that needs it is
  parametrised over an arbitrary solver `irrF : List ℚ → PyFloat`
  constrained only by the library's documented behaviour: when the
  cash-flow series has no sign change there is no internal rate of return
  and the function returns NaN.  `npfIrrModel` is one concrete solver
  satisfying that constraint, used for witnesses and concrete evaluations.
* A Python expression that raises an uncaught exception
  (`ZeroDivisionError`) is modelled by `none`; `simulate_financials`
  therefore returns `Option SimResult`, and the sweep loops propagate
  `none` exactly as an exception would abort the Python `for` loop.
* Python truthiness (`if x:` on a float) is modelled by `PyFloat.truthy`
  and by `≠ 0` tests on rationals; note that Python's `bool(nan)` is
  `True`, which `PyFloat.truthy` reproduces.
* Python's `round` (banker's rounding) is modelled by `pyRound`.
-/

/-- A Python float that is either an actual (exact) number or NaN. -/
inductive PyFloat where
  | num (q : ℚ)
  | nan
deriving DecidableEq

/-- Python truthiness of a float: `bool(0.0)` is `False`, any other float
including `nan` is truthy. -/
def PyFloat.truthy : PyFloat → Bool
  | .num q => decide (q ≠ 0)
  | .nan => true

/-- Multiplication of a Python float by a number; NaN is absorbing. -/
def PyFloat.mulQ : PyFloat → ℚ → PyFloat
  | .num q, c => .num (q * c)
  | .nan, _ => .nan

/-- Round-half-to-even on rationals, the tie-breaking rule of Python's
built-in `round`. -/
def roundHalfEven (q : ℚ) : ℤ :=
  if q - ⌊q⌋ < 1 / 2 then ⌊q⌋
  else if (1 : ℚ) / 2 < q - ⌊q⌋ then ⌊q⌋ + 1
  else if 2 ∣ ⌊q⌋ then ⌊q⌋ else ⌊q⌋ + 1

/-- Python's `round(q, nd)` for `nd ≥ 0` digits, on exact rationals. -/
def pyRound (q : ℚ) (nd : ℕ) : ℚ :=
  (roundHalfEven (q * 10 ^ nd) : ℚ) / 10 ^ nd

/-- Python's `round(x, 2)` lifted to `PyFloat`: `round(nan, 2)` is `nan`. -/
def PyFloat.round2 : PyFloat → PyFloat
  | .num q => .num (pyRound q 2)
  | .nan => .nan

/-- Fixed parameter `area = 1000` (app.py line 21). -/
def area : ℚ := 1000

/-- Fixed parameter `sellable_pct = 0.6` (app.py line 22). -/
def sellable_pct : ℚ := 6 / 10

/-- Fixed parameter `dev_cost_per_sqm = 500` (app.py line 23). -/
def dev_cost_per_sqm : ℚ := 500

/-- Fixed parameter `total_sellable_area = area * sellable_pct`
(app.py line 24). -/
def total_sellable_area : ℚ := area * sellable_pct

/-- The discounting comprehension of app.py lines 39 and 40:
`npvAux wacc i cfs` is the sum of `cf / (1 + wacc) ^ j` for the entries
`cf` of `cfs`, with the first entry at exponent `j = i`. -/
def npvAux (wacc : ℚ) : ℕ → List ℚ → ℚ
  | _, [] => 0
  | i, cf :: rest => cf / (1 + wacc) ^ i + npvAux wacc (i + 1) rest

/-- A cash-flow series has no sign change when all entries are on one side
of zero.  In that case the IRR polynomial has no admissible root. -/
def noSignChange (cfs : List ℚ) : Bool :=
  cfs.all (fun c => decide (c ≤ 0)) || cfs.all (fun c => decide (0 ≤ c))

/-- A concrete stand-in for `numpy_financial.irr` satisfying the
library's documented contract that a series with no sign change has no
internal rate of return and yields NaN.  The value produced in the
solvable branch is irrelevant to every claim below, which either
quantifies over all solvers with the NaN property or only exercises the
no-sign-change branch. -/
def npfIrrModel (cfs : List ℚ) : PyFloat :=
  if noSignChange cfs then .nan else .num 0

/-- Result record of `simulate_financials` (app.py line 42). -/
structure SimResult where
  irr : PyFloat
  npv : ℚ
  roic : ℚ
  net_cash_flows : List ℚ
deriving DecidableEq

/-- Straight-line embedding of the body of `simulate_financials`
(app.py lines 27-42), parametrised over the external IRR solver `irrF`.
`project_years` is a Python `int`; `[x] * n` is empty for `n ≤ 0`, hence
`List.replicate project_years.toNat`.  The guard `total_cost ≠ 0` embeds
the conditional expression `revenue / total_cost if total_cost else 0` of
line 41. -/
def simCore (irrF : List ℚ → PyFloat)
    (selling_price land_price loan_pct wacc : ℚ) (project_years : ℤ) :
    SimResult :=
  let revenue := selling_price * total_sellable_area
  let land_cost := land_price * area
  let development_cost := dev_cost_per_sqm * area
  let total_cost := land_cost + development_cost
  let equity := total_cost * (1 - loan_pct)
  let annual_cash_inflow := revenue / (project_years : ℚ)
  let annual_cash_outflow := total_cost / (project_years : ℚ)
  let net_cash_flows :=
    -equity ::
      List.replicate project_years.toNat
        (annual_cash_inflow - annual_cash_outflow)
  { irr := irrF net_cash_flows
    npv := npvAux wacc 0 net_cash_flows
    roic := if total_cost ≠ 0 then revenue / total_cost else 0
    net_cash_flows := net_cash_flows }

/-- `simulate_financials` (app.py lines 27-42) including its exception
behaviour: with `project_years = 0` line 34 (`revenue / project_years`)
raises `ZeroDivisionError`, and with `1 + wacc = 0` and at least one
period line 39 divides by `(1 + wacc) ** 1 = 0` and raises; both
uncaught exceptions are modelled by `none`.  There is no validation of
the assumptions anywhere in the function. -/
def simulate_financials (irrF : List ℚ → PyFloat)
    (selling_price land_price loan_pct wacc : ℚ) (project_years : ℤ) :
    Option SimResult :=
  if project_years = 0 then none
  else if 1 + wacc = 0 ∧ 1 ≤ project_years then none
  else some (simCore irrF selling_price land_price loan_pct wacc project_years)

/-- One row of the multi-scenario comparison table (app.py lines 76-81). -/
structure Row where
  selling_price : ℤ
  irr_pct : Option PyFloat
  npv : Option ℚ
  roic : Option ℚ
deriving DecidableEq

/-- Row construction of app.py lines 76-81: each metric is kept only when
the raw value is truthy (`... if comp_irr else None`), then scaled and
rounded as in the source. -/
def mkRow (price : ℤ) (r : SimResult) : Row :=
  { selling_price := price
    irr_pct := if r.irr.truthy then some ((r.irr.mulQ 100).round2) else none
    npv := if r.npv ≠ 0 then some (pyRound r.npv 0) else none
    roic := if r.roic ≠ 0 then some (pyRound r.roic 2) else none }

/-- `comparison_prices = [1000, 2000, 3000, 4000, 5000]` (app.py line 71). -/
def comparison_prices : List ℤ := [1000, 2000, 3000, 4000, 5000]

/-- The comparison `for` loop body (app.py lines 74-81) over an explicit
candidate list: rows are appended in candidate order, and an exception in
any iteration aborts the whole loop (`none`). -/
def sweepRows (irrF : List ℚ → PyFloat)
    (land_price loan_pct wacc : ℚ) (project_years : ℤ) :
    List ℤ → Option (List Row)
  | [] => some []
  | p :: ps =>
    match simulate_financials irrF (p : ℚ) land_price loan_pct wacc
        project_years with
    | none => none
    | some r =>
      match sweepRows irrF land_price loan_pct wacc project_years ps with
      | none => none
      | some rows => some (mkRow p r :: rows)

/-- `comparison_results` (app.py lines 72-81): the sweep over
`comparison_prices`. -/
def comparison_results (irrF : List ℚ → PyFloat)
    (land_price loan_pct wacc : ℚ) (project_years : ℤ) :
    Option (List Row) :=
  sweepRows irrF land_price loan_pct wacc project_years comparison_prices

/-- One row of the WACC sensitivity table (app.py lines 104-108). -/
structure SensRow where
  wacc_pct : ℚ
  irr_pct : Option PyFloat
  npv : Option ℚ
deriving DecidableEq

/-- Row construction of app.py lines 104-108. -/
def mkSensRow (wacc_val : ℚ) (r : SimResult) : SensRow :=
  { wacc_pct := pyRound (wacc_val * 100) 1
    irr_pct := if r.irr.truthy then some ((r.irr.mulQ 100).round2) else none
    npv := if r.npv ≠ 0 then some (pyRound r.npv 0) else none }

/-- `wacc_values = [0.08, 0.1, 0.12, 0.14, 0.15]` (app.py line 99). -/
def wacc_values : List ℚ := [8 / 100, 1 / 10, 12 / 100, 14 / 100, 15 / 100]

/-- The WACC sensitivity `for` loop body (app.py lines 102-108) over an
explicit list of discount rates. -/
def sensRows (irrF : List ℚ → PyFloat)
    (selling_price land_price loan_pct : ℚ) (project_years : ℤ) :
    List ℚ → Option (List SensRow)
  | [] => some []
  | wv :: ws =>
    match simulate_financials irrF selling_price land_price loan_pct wv
        project_years with
    | none => none
    | some r =>
      match sensRows irrF selling_price land_price loan_pct project_years
          ws with
      | none => none
      | some rows => some (mkSensRow wv r :: rows)

/-- `sensitivity_results` (app.py lines 100-108). -/
def sensitivity_results (irrF : List ℚ → PyFloat)
    (selling_price land_price loan_pct : ℚ) (project_years : ℤ) :
    Option (List SensRow) :=
  sensRows irrF selling_price land_price loan_pct project_years wacc_values

/-- What a `st.metric` slot displays: either a formatted number or the
literal string N/A. -/
inductive MetricDisplay where
  | formatted (x : PyFloat)
  | na
deriving DecidableEq

/-- The headline IRR display of app.py line 48:
the formatted value when `irr` is truthy, otherwise N/A.  Note that a NaN
irr is truthy, so it reaches the formatted branch. -/
def irr_headline (irr : PyFloat) : MetricDisplay :=
  if irr.truthy then .formatted (irr.mulQ 100) else .na

/-- The headline ROIC display of app.py line 50: always a number,
formatted to two decimals, with no N/A branch. -/
def roic_headline (roic : ℚ) : ℚ := pyRound roic 2

/-- Python's `range(start, stop, step)` for a positive step. -/
def pyRange (start stop step : ℤ) : List ℤ :=
  if 0 < step then
    (List.range (((stop - start).toNat + (step.toNat - 1)) / step.toNat)).map
      (fun i : ℕ => start + step * (i : ℤ))
  else []

/-- The scan loop of `find_breakeven_price` (app.py lines 127-131) over an
explicit candidate list.  The outer `Option` models exception
propagation out of the loop; the inner `Option` models the
`return None, None, None` not-found result of line 131. -/
def breakevenScan (irrF : List ℚ → PyFloat)
    (land_price loan_pct wacc : ℚ) (project_years : ℤ) :
    List ℤ → Option (Option (ℤ × PyFloat × ℚ))
  | [] => some none
  | price :: rest =>
    match simulate_financials irrF (price : ℚ) land_price loan_pct wacc
        project_years with
    | none => none
    | some r =>
      if 0 ≤ r.npv then some (some (price, r.irr, r.npv))
      else breakevenScan irrF land_price loan_pct wacc project_years rest

/-- `find_breakeven_price` (app.py lines 126-131): scans
`range(start, stop + 1, step)` and returns the first price whose NPV is
non-negative, with that price's IRR and NPV.  The app calls it with the
default arguments `start = 1000`, `stop = 5000`, `step = 50`
(line 133). -/
def find_breakeven_price (irrF : List ℚ → PyFloat)
    (land_price loan_pct wacc : ℚ) (project_years : ℤ)
    (start stop step : ℤ) : Option (Option (ℤ × PyFloat × ℚ)) :=
  breakevenScan irrF land_price loan_pct wacc project_years
    (pyRange start (stop + 1) step)

/-- Inversion for successful simulation: a `some` result is the core
computation, and the period count was nonzero. -/
lemma simulate_financials_some_inv (irrF : List ℚ → PyFloat)
    (sp lp loan wacc : ℚ) (years : ℤ) (r : SimResult)
    (h : simulate_financials irrF sp lp loan wacc years = some r) :
    r = simCore irrF sp lp loan wacc years ∧ years ≠ 0 := by
  by_cases hy : years = 0
  · simp [simulate_financials, hy] at h
  · by_cases hw : 1 + wacc = 0 ∧ 1 ≤ years
    · simp [simulate_financials, hy, hw] at h
    · simp [simulate_financials, hy, hw] at h
      exact ⟨h.symm, hy⟩

/-- When no exception fires, `simulate_financials` returns the core
result. -/
lemma simulate_financials_eq_some (irrF : List ℚ → PyFloat)
    (sp lp loan wacc : ℚ) (years : ℤ)
    (hy : years ≠ 0) (hw : ¬(1 + wacc = 0 ∧ 1 ≤ years)) :
    simulate_financials irrF sp lp loan wacc years =
      some (simCore irrF sp lp loan wacc years) := by
  simp [simulate_financials, hy, hw]

/-- The cash-flow series built by the core, written out. -/
lemma simCore_net_cash_flows (irrF : List ℚ → PyFloat)
    (sp lp loan wacc : ℚ) (years : ℤ) :
    (simCore irrF sp lp loan wacc years).net_cash_flows =
      -((lp * area + dev_cost_per_sqm * area) * (1 - loan)) ::
        List.replicate years.toNat
          (sp * total_sellable_area / (years : ℚ) -
            (lp * area + dev_cost_per_sqm * area) / (years : ℚ)) := rfl

/-- The NPV field of the core result, written out. -/
lemma simCore_npv (irrF : List ℚ → PyFloat)
    (sp lp loan wacc : ℚ) (years : ℤ) :
    (simCore irrF sp lp loan wacc years).npv =
      npvAux wacc 0 (simCore irrF sp lp loan wacc years).net_cash_flows := rfl

/-- The IRR field of the core result is the solver applied to the series. -/
lemma simCore_irr (irrF : List ℚ → PyFloat)
    (sp lp loan wacc : ℚ) (years : ℤ) :
    (simCore irrF sp lp loan wacc years).irr =
      irrF (simCore irrF sp lp loan wacc years).net_cash_flows := rfl

/-- The ROIC field of the core result, written out. -/
lemma simCore_roic (irrF : List ℚ → PyFloat)
    (sp lp loan wacc : ℚ) (years : ℤ) :
    (simCore irrF sp lp loan wacc years).roic =
      if lp * area + dev_cost_per_sqm * area ≠ 0 then
        sp * total_sellable_area / (lp * area + dev_cost_per_sqm * area)
      else 0 := rfl

/-- Discounting at rate zero is the plain sum. -/
lemma npvAux_zero_rate (l : List ℚ) : ∀ i, npvAux 0 i l = l.sum := by
  induction l with
  | nil => intro i; simp [npvAux]
  | cons c rest ih => intro i; simp [npvAux, ih]

/-- Claim C4: for every valid assumptions the cash-flow series returned
by the simulation has length `periods + 1`, and its element at index 0 is
strictly negative whenever the initial outlay
`total_cost * (1 - loan_fraction)` is positive. -/
theorem claim_c4_series_shape (irrF : List ℚ → PyFloat)
    (sp lp loan wacc : ℚ) (years : ℤ) (r : SimResult)
    (_hy : 1 ≤ years)
    (h : simulate_financials irrF sp lp loan wacc years = some r) :
    r.net_cash_flows.length = years.toNat + 1 ∧
      (0 < (lp * area + dev_cost_per_sqm * area) * (1 - loan) →
        ∀ c0, r.net_cash_flows.head? = some c0 → c0 < 0) := by
  obtain ⟨hr, -⟩ := simulate_financials_some_inv _ _ _ _ _ _ _ h
  subst hr
  rw [simCore_net_cash_flows]
  refine ⟨by simp, ?_⟩
  intro hpos c0 hc0
  simp only [List.head?_cons, Option.some.injEq] at hc0
  rw [← hc0]
  linarith

/-- Claim C4 witness at a concrete input. -/
theorem claim_c4_series_shape_witness :
    (simCore npfIrrModel 3500 3000 (7 / 10) (11 / 100) 5).net_cash_flows.length
        = (5 : ℤ).toNat + 1 ∧
      (0 < ((3000 : ℚ) * area + dev_cost_per_sqm * area) * (1 - 7 / 10) →
        ∀ c0, (simCore npfIrrModel 3500 3000 (7 / 10) (11 / 100)
            5).net_cash_flows.head? = some c0 → c0 < 0) :=
  claim_c4_series_shape npfIrrModel 3500 3000 (7 / 10) (11 / 100) 5 _
    (by decide)
    (simulate_financials_eq_some npfIrrModel 3500 3000 (7 / 10) (11 / 100) 5
      (by decide) (by norm_num))

/-- Claim C5: for every valid assumptions and positive period count, the
sum of the cash-flow entries after the initial outlay equals
`revenue - total_cost` exactly. -/
theorem claim_c5_linear_distribution (irrF : List ℚ → PyFloat)
    (sp lp loan wacc : ℚ) (years : ℤ) (r : SimResult)
    (hy : 1 ≤ years)
    (h : simulate_financials irrF sp lp loan wacc years = some r) :
    r.net_cash_flows.tail.sum =
      sp * total_sellable_area - (lp * area + dev_cost_per_sqm * area) := by
  obtain ⟨hr, -⟩ := simulate_financials_some_inv _ _ _ _ _ _ _ h
  subst hr
  rw [simCore_net_cash_flows]
  have hy0 : (years : ℚ) ≠ 0 := by
    exact_mod_cast (by omega : years ≠ 0)
  have hcast : ((years.toNat : ℕ) : ℚ) = (years : ℚ) := by
    have : ((years.toNat : ℤ) : ℚ) = (years : ℚ) := by
      rw [Int.toNat_of_nonneg (by omega)]
    exact_mod_cast this
  simp only [List.tail_cons, List.sum_replicate, nsmul_eq_mul, hcast]
  field_simp

/-- Claim C5 witness at a concrete input. -/
theorem claim_c5_linear_distribution_witness :
    (simCore npfIrrModel 3500 3000 (7 / 10) (11 / 100)
        5).net_cash_flows.tail.sum =
      3500 * total_sellable_area -
        ((3000 : ℚ) * area + dev_cost_per_sqm * area) :=
  claim_c5_linear_distribution npfIrrModel 3500 3000 (7 / 10) (11 / 100) 5 _
    (by decide)
    (simulate_financials_eq_some npfIrrModel 3500 3000 (7 / 10) (11 / 100) 5
      (by decide) (by norm_num))

/-- Claim C6: the NPV computed by the simulation with discount rate 0
equals the undiscounted sum of the returned cash-flow series. -/
theorem claim_c6_npv_zero_rate (irrF : List ℚ → PyFloat)
    (sp lp loan : ℚ) (years : ℤ) (r : SimResult)
    (h : simulate_financials irrF sp lp loan 0 years = some r) :
    r.npv = r.net_cash_flows.sum := by
  obtain ⟨hr, -⟩ := simulate_financials_some_inv _ _ _ _ _ _ _ h
  subst hr
  rw [simCore_npv, npvAux_zero_rate]

/-- Claim C6 witness at a concrete input. -/
theorem claim_c6_npv_zero_rate_witness :
    (simCore npfIrrModel 3500 3000 (7 / 10) 0 5).npv =
      (simCore npfIrrModel 3500 3000 (7 / 10) 0 5).net_cash_flows.sum :=
  claim_c6_npv_zero_rate npfIrrModel 3500 3000 (7 / 10) 5 _
    (simulate_financials_eq_some npfIrrModel 3500 3000 (7 / 10) 0 5
      (by decide) (by norm_num))

/-- The concrete solver satisfies the documented NaN-on-no-sign-change
contract. -/
lemma npfIrrModel_nan (cfs : List ℚ) (h : noSignChange cfs = true) :
    npfIrrModel cfs = PyFloat.nan := by
  simp [npfIrrModel, h]

/-- Claim C10: because presence of a metric is tested by numeric
truthiness, a metric whose computed value is exactly 0 is reported as the
undefined marker: the comparison row and the sensitivity row record
`none` for it, and a headline IRR of exactly 0 is displayed as N/A. -/
theorem claim_c10_zero_is_none (r : SimResult) (price : ℤ) (wv : ℚ) :
    (r.irr = PyFloat.num 0 →
      (mkRow price r).irr_pct = none ∧ (mkSensRow wv r).irr_pct = none) ∧
    (r.npv = 0 →
      (mkRow price r).npv = none ∧ (mkSensRow wv r).npv = none) ∧
    (r.roic = 0 → (mkRow price r).roic = none) ∧
    irr_headline (PyFloat.num 0) = MetricDisplay.na := by
  refine ⟨?_, ?_, ?_, ?_⟩
  · intro h; constructor <;> simp [mkRow, mkSensRow, h, PyFloat.truthy]
  · intro h; constructor <;> simp [mkRow, mkSensRow, h]
  · intro h; simp [mkRow, h]
  · simp [irr_headline, PyFloat.truthy]

/-- Claim C10 witness: a result whose three metrics are all exactly 0
yields `none` in every row slot and N/A in the headline. -/
theorem claim_c10_zero_is_none_witness :
    (mkRow 1000 ⟨PyFloat.num 0, 0, 0, []⟩).irr_pct = none ∧
    (mkSensRow (8 / 100) ⟨PyFloat.num 0, 0, 0, []⟩).irr_pct = none ∧
    (mkRow 1000 ⟨PyFloat.num 0, 0, 0, []⟩).npv = none ∧
    (mkRow 1000 ⟨PyFloat.num 0, 0, 0, []⟩).roic = none ∧
    irr_headline (PyFloat.num 0) = MetricDisplay.na := by
  have h := claim_c10_zero_is_none ⟨PyFloat.num 0, 0, 0, []⟩ 1000 (8 / 100)
  exact ⟨(h.1 rfl).1, (h.1 rfl).2, (h.2.1 rfl).1, h.2.2.1 rfl, h.2.2.2⟩

/-- Claim C7: at selling price 3500, land price 3000, discount rate 0.11
and five annual periods, revenue is 2,100,000, total cost 3,500,000,
ROIC 0.6, every per-period flow is exactly -280,000, the series has no
sign change, and the IRR takes the undefined (NaN) value, for any solver
honouring the documented no-sign-change contract and any loan fraction
at most 1. -/
theorem claim_c7_example (irrF : List ℚ → PyFloat)
    (hirr : ∀ cfs, noSignChange cfs = true → irrF cfs = PyFloat.nan)
    (loan : ℚ) (hl : loan ≤ 1) :
    3500 * total_sellable_area = 2100000 ∧
    (3000 : ℚ) * area + dev_cost_per_sqm * area = 3500000 ∧
    (simCore irrF 3500 3000 loan (11 / 100) 5).roic = 3 / 5 ∧
    (simCore irrF 3500 3000 loan (11 / 100) 5).net_cash_flows.tail =
      List.replicate 5 (-280000) ∧
    noSignChange (simCore irrF 3500 3000 loan (11 / 100) 5).net_cash_flows
      = true ∧
    (simCore irrF 3500 3000 loan (11 / 100) 5).irr = PyFloat.nan := by
  have hflows : (simCore irrF 3500 3000 loan (11 / 100) 5).net_cash_flows =
      -((3500000 : ℚ) * (1 - loan)) :: List.replicate 5 (-280000) := by
    rw [simCore_net_cash_flows]
    norm_num [total_sellable_area, area, sellable_pct, dev_cost_per_sqm]
    rfl
  have hnsc : noSignChange
      (simCore irrF 3500 3000 loan (11 / 100) 5).net_cash_flows = true := by
    rw [hflows]
    simp only [noSignChange, Bool.or_eq_true, List.all_eq_true]
    left
    intro c hc
    rcases List.mem_cons.mp hc with h1 | h2
    · subst h1
      simp only [decide_eq_true_eq]
      have h0 : (0 : ℚ) ≤ 3500000 * (1 - loan) :=
        mul_nonneg (by norm_num) (by linarith)
      linarith
    · have := List.eq_of_mem_replicate h2
      subst this
      norm_num
  refine ⟨?_, ?_, ?_, ?_, hnsc, ?_⟩
  · norm_num [total_sellable_area, area, sellable_pct]
  · norm_num [area, dev_cost_per_sqm]
  · rw [simCore_roic]
    norm_num [total_sellable_area, area, sellable_pct, dev_cost_per_sqm]
  · rw [hflows]
    rfl
  · rw [simCore_irr, hirr _ hnsc]

/-- Claim C7 witness with the concrete solver and the app's default loan
fraction 0.7. -/
theorem claim_c7_example_witness :
    3500 * total_sellable_area = 2100000 ∧
    (3000 : ℚ) * area + dev_cost_per_sqm * area = 3500000 ∧
    (simCore npfIrrModel 3500 3000 (7 / 10) (11 / 100) 5).roic = 3 / 5 ∧
    (simCore npfIrrModel 3500 3000 (7 / 10) (11 / 100)
        5).net_cash_flows.tail = List.replicate 5 (-280000) ∧
    noSignChange (simCore npfIrrModel 3500 3000 (7 / 10) (11 / 100)
        5).net_cash_flows = true ∧
    (simCore npfIrrModel 3500 3000 (7 / 10) (11 / 100) 5).irr =
      PyFloat.nan :=
  claim_c7_example npfIrrModel npfIrrModel_nan (7 / 10) (by norm_num)

/-- Claim C3 counterexample: with land price -500 the total cost is
exactly 0, and the simulation returns ROIC as the plain number 0 - not
an undefined marker - so the zero-cost case is silently coerced into a
numeric 0. -/
theorem claim_c3_counterexample :
    (simulate_financials npfIrrModel 3500 (-500) (7 / 10) (11 / 100) 5).map
      SimResult.roic = some 0 := by
  rw [simulate_financials_eq_some _ _ _ _ _ _ (by decide) (by norm_num)]
  simp only [Option.map_some']
  rw [simCore_roic]
  norm_num [area, dev_cost_per_sqm]

/-- Claim C3 amended: when total cost is 0 the simulation avoids the
division but returns the numeric value 0 for ROIC (the code's falsy
sentinel); the headline display formats that 0 numerically, while the
sweep row construction later converts it to the `none` marker by
truthiness. -/
theorem claim_c3_amended :
    (simulate_financials npfIrrModel 3500 (-500) (7 / 10) (11 / 100) 5).map
      SimResult.roic = some 0 ∧
    roic_headline 0 = 0 ∧
    (mkRow 3500 (simCore npfIrrModel 3500 (-500) (7 / 10) (11 / 100)
      5)).roic = none := by
  have hroic : (simCore npfIrrModel 3500 (-500) (7 / 10) (11 / 100) 5).roic
      = 0 := by
    rw [simCore_roic]
    norm_num [area, dev_cost_per_sqm]
  refine ⟨?_, ?_, ?_⟩
  · rw [simulate_financials_eq_some _ _ _ _ _ _ (by decide) (by norm_num)]
    simp only [Option.map_some', hroic]
  · norm_num [roic_headline, pyRound, roundHalfEven]
  · simp [mkRow, hroic]

/-- Claim C8 counterexample: a duration of 0 is not rejected before
simulation; `simulate_financials` itself raises an unguarded
`ZeroDivisionError` (modelled by `none`), i.e. a crash rather than a
distinct recoverable validation failure. -/
theorem claim_c8_counterexample :
    simulate_financials npfIrrModel 3500 3000 (7 / 10) (11 / 100) 0
      = none := by
  simp [simulate_financials]

/-- Claim C8 amended: the code contains no validation of the duration.
Duration 0 crashes inside the simulation with a division by zero, and a
negative duration silently produces a degenerate one-element cash-flow
series; only the UI slider bounds keep the duration positive. -/
theorem claim_c8_amended :
    simulate_financials npfIrrModel 3500 3000 (7 / 10) (11 / 100) 0
        = none ∧
    (simulate_financials npfIrrModel 3500 3000 (7 / 10) (11 / 100)
        (-3)).map (fun r => r.net_cash_flows.length) = some 1 := by
  constructor
  · simp [simulate_financials]
  · rw [simulate_financials_eq_some _ _ _ _ _ _ (by decide) (by norm_num)]
    simp only [Option.map_some']
    rw [simCore_net_cash_flows]
    simp

/-- When no exception fires, the sweep loop returns one row per
candidate, in candidate order. -/
lemma sweepRows_eq (irrF : List ℚ → PyFloat)
    (lp loan wacc : ℚ) (years : ℤ)
    (hy : years ≠ 0) (hw : ¬(1 + wacc = 0 ∧ 1 ≤ years)) :
    ∀ ps : List ℤ, sweepRows irrF lp loan wacc years ps =
      some (ps.map (fun p => mkRow p (simCore irrF (p : ℚ) lp loan wacc
        years))) := by
  intro ps
  induction ps with
  | nil => rfl
  | cons p ps ih =>
    simp only [sweepRows, simulate_financials_eq_some _ _ _ _ _ _ hy hw, ih,
      List.map_cons]

/-- Claim C9: sweeping is deterministic - identical inputs give identical
output sequences for the comparison sweep, the sensitivity sweep and the
simulation itself - and the comparison sweep emits exactly one row per
candidate price, preserving candidate order. -/
theorem claim_c9_determinism (irrF : List ℚ → PyFloat)
    (sp lp loan wacc : ℚ) (years : ℤ)
    (hy : years ≠ 0) (hw : ¬(1 + wacc = 0 ∧ 1 ≤ years)) :
    comparison_results irrF lp loan wacc years =
        comparison_results irrF lp loan wacc years ∧
    sensitivity_results irrF sp lp loan years =
        sensitivity_results irrF sp lp loan years ∧
    simulate_financials irrF sp lp loan wacc years =
        simulate_financials irrF sp lp loan wacc years ∧
    comparison_results irrF lp loan wacc years =
      some (comparison_prices.map
        (fun p => mkRow p (simCore irrF (p : ℚ) lp loan wacc years))) ∧
    ∀ rows, comparison_results irrF lp loan wacc years = some rows →
      rows.map Row.selling_price = comparison_prices := by
  have hmain := sweepRows_eq irrF lp loan wacc years hy hw comparison_prices
  refine ⟨rfl, rfl, rfl, hmain, ?_⟩
  intro rows hrows
  have hsome : some rows = some (comparison_prices.map
      (fun p => mkRow p (simCore irrF (p : ℚ) lp loan wacc years))) :=
    hrows.symm.trans hmain
  injection hsome with hrows2
  subst hrows2
  rfl

/-- Claim C9 witness at the app's default slider values. -/
theorem claim_c9_determinism_witness :
    comparison_results npfIrrModel 3000 (7 / 10) (11 / 100) 5 =
        comparison_results npfIrrModel 3000 (7 / 10) (11 / 100) 5 ∧
    sensitivity_results npfIrrModel 3500 3000 (7 / 10) 5 =
        sensitivity_results npfIrrModel 3500 3000 (7 / 10) 5 ∧
    simulate_financials npfIrrModel 3500 3000 (7 / 10) (11 / 100) 5 =
        simulate_financials npfIrrModel 3500 3000 (7 / 10) (11 / 100) 5 ∧
    comparison_results npfIrrModel 3000 (7 / 10) (11 / 100) 5 =
      some (comparison_prices.map
        (fun p => mkRow p (simCore npfIrrModel (p : ℚ) 3000 (7 / 10)
          (11 / 100) 5))) ∧
    ∀ rows, comparison_results npfIrrModel 3000 (7 / 10) (11 / 100) 5 =
        some rows → rows.map Row.selling_price = comparison_prices :=
  claim_c9_determinism npfIrrModel 3500 3000 (7 / 10) (11 / 100) 5
    (by decide) (by norm_num)

/-- Discounting nonpositive flows at a rate above -1 never yields a
positive value. -/
lemma npvAux_nonpos (w : ℚ) (hw : 0 < 1 + w) :
    ∀ (i : ℕ) (l : List ℚ), (∀ c ∈ l, c ≤ 0) → npvAux w i l ≤ 0 := by
  intro i l
  induction l generalizing i with
  | nil => intro _; simp [npvAux]
  | cons c rest ih =>
    intro hall
    have hterm : c / (1 + w) ^ i ≤ 0 :=
      div_nonpos_iff.mpr (Or.inr ⟨hall c (List.mem_cons_self c rest),
        le_of_lt (pow_pos hw i)⟩)
    have hrest := ih (i + 1) (fun x hx => hall x (List.mem_cons_of_mem c hx))
    simp only [npvAux]
    linarith

/-- Discounting a strictly negative first flow followed by nonpositive
flows yields a strictly negative value. -/
lemma npvAux_head_neg (w : ℚ) (hw : 0 < 1 + w) (i : ℕ) (c : ℚ)
    (l : List ℚ) (hc : c < 0) (hl : ∀ x ∈ l, x ≤ 0) :
    npvAux w i (c :: l) < 0 := by
  have hterm : c / (1 + w) ^ i < 0 := div_neg_of_neg_of_pos hc (pow_pos hw i)
  have hrest := npvAux_nonpos w hw (i + 1) l hl
  simp only [npvAux]
  linarith

/-- Claim C2 divergence witness: at the default assumptions (land price
3000, loan 0.7, WACC 0.11, five years) the sweep candidate 1000 has a
no-sign-change series, so the IRR is NaN; because `bool(nan)` is `True`
the comparison row stores NaN in its IRR column instead of the `none`
marker, while its NPV and ROIC columns are populated, and the headline
metric formats NaN instead of showing N/A.  The row really is the head of
the sweep output. -/
theorem claim_c2_nan_propagates :
    (mkRow 1000 (simCore npfIrrModel 1000 3000 (7 / 10) (11 / 100)
        5)).irr_pct = some PyFloat.nan ∧
    (mkRow 1000 (simCore npfIrrModel 1000 3000 (7 / 10) (11 / 100)
        5)).npv.isSome = true ∧
    (mkRow 1000 (simCore npfIrrModel 1000 3000 (7 / 10) (11 / 100)
        5)).roic.isSome = true ∧
    (comparison_results npfIrrModel 3000 (7 / 10) (11 / 100) 5).map
        List.head? =
      some (some (mkRow 1000 (simCore npfIrrModel 1000 3000 (7 / 10)
        (11 / 100) 5))) ∧
    irr_headline (simCore npfIrrModel 3500 3000 (7 / 10) (11 / 100) 5).irr
      = MetricDisplay.formatted PyFloat.nan := by
  have hflows : (simCore npfIrrModel 1000 3000 (7 / 10) (11 / 100)
      5).net_cash_flows = -1050000 :: List.replicate 5 (-580000) := by
    rw [simCore_net_cash_flows]
    norm_num [total_sellable_area, area, sellable_pct, dev_cost_per_sqm]
    rfl
  have hnsc : noSignChange (simCore npfIrrModel 1000 3000 (7 / 10)
      (11 / 100) 5).net_cash_flows = true := by
    rw [hflows]
    simp only [noSignChange, Bool.or_eq_true, List.all_eq_true]
    left
    intro c hc
    rcases List.mem_cons.mp hc with h1 | h2
    · subst h1; norm_num
    · have := List.eq_of_mem_replicate h2
      subst this; norm_num
  have hirr : (simCore npfIrrModel 1000 3000 (7 / 10) (11 / 100) 5).irr =
      PyFloat.nan := by
    rw [simCore_irr, npfIrrModel_nan _ hnsc]
  have hnpv : (simCore npfIrrModel 1000 3000 (7 / 10) (11 / 100) 5).npv
      < 0 := by
    rw [simCore_npv, hflows]
    exact npvAux_head_neg _ (by norm_num) _ _ _ (by norm_num)
      (fun x hx => by
        have := List.eq_of_mem_replicate hx
        subst this; norm_num)
  have hroic : (simCore npfIrrModel 1000 3000 (7 / 10) (11 / 100) 5).roic
      = 6 / 35 := by
    rw [simCore_roic]
    norm_num [total_sellable_area, area, sellable_pct, dev_cost_per_sqm]
  refine ⟨?_, ?_, ?_, ?_, ?_⟩
  · simp [mkRow, hirr, PyFloat.truthy, PyFloat.mulQ, PyFloat.round2]
  · simp [mkRow, ne_of_lt hnpv]
  · simp [mkRow, hroic]
  · have h := sweepRows_eq npfIrrModel 3000 (7 / 10) (11 / 100) 5
      (by decide) (by norm_num) comparison_prices
    rw [comparison_results, h]
    rfl
  · have hflows2 : (simCore npfIrrModel 3500 3000 (7 / 10) (11 / 100)
        5).net_cash_flows = -1050000 :: List.replicate 5 (-280000) := by
      rw [simCore_net_cash_flows]
      norm_num [total_sellable_area, area, sellable_pct, dev_cost_per_sqm]
      rfl
    have hnsc2 : noSignChange (simCore npfIrrModel 3500 3000 (7 / 10)
        (11 / 100) 5).net_cash_flows = true := by
      rw [hflows2]
      simp only [noSignChange, Bool.or_eq_true, List.all_eq_true]
      left
      intro c hc
      rcases List.mem_cons.mp hc with h1 | h2
      · subst h1; norm_num
      · have := List.eq_of_mem_replicate h2
        subst this; norm_num
    rw [simCore_irr, npfIrrModel_nan _ hnsc2]
    simp [irr_headline, PyFloat.truthy, PyFloat.mulQ]

/-- If the breakeven scan over a strictly increasing candidate list finds
a price, that price is a candidate, the returned IRR and NPV are the
simulation's values at that price, the NPV is non-negative, and every
smaller candidate has strictly negative NPV. -/
lemma breakevenScan_found (irrF : List ℚ → PyFloat)
    (lp loan wacc : ℚ) (years : ℤ)
    (hy : years ≠ 0) (hw : ¬(1 + wacc = 0 ∧ 1 ≤ years)) :
    ∀ cands : List ℤ, cands.Pairwise (· < ·) →
    ∀ (p : ℤ) (ir : PyFloat) (nv : ℚ),
      breakevenScan irrF lp loan wacc years cands = some (some (p, ir, nv)) →
      p ∈ cands ∧
      ir = (simCore irrF (p : ℚ) lp loan wacc years).irr ∧
      nv = (simCore irrF (p : ℚ) lp loan wacc years).npv ∧
      0 ≤ nv ∧
      ∀ q ∈ cands, q < p →
        (simCore irrF (q : ℚ) lp loan wacc years).npv < 0 := by
  intro cands
  induction cands with
  | nil =>
    intro _ p ir nv h
    simp [breakevenScan] at h
  | cons c cs ih =>
    intro hpw p ir nv h
    rw [List.pairwise_cons] at hpw
    simp only [breakevenScan,
      simulate_financials_eq_some _ _ _ _ _ _ hy hw] at h
    by_cases hnpv : 0 ≤ (simCore irrF (c : ℚ) lp loan wacc years).npv
    · rw [if_pos hnpv] at h
      simp only [Option.some.injEq, Prod.mk.injEq] at h
      obtain ⟨rfl, rfl, rfl⟩ := h
      refine ⟨List.mem_cons_self _ _, rfl, rfl, hnpv, ?_⟩
      intro q hq hlt
      rcases List.mem_cons.mp hq with rfl | hq2
      · exact absurd hlt (lt_irrefl _)
      · exact absurd hlt (not_lt.mpr (le_of_lt (hpw.1 q hq2)))
    · rw [if_neg hnpv] at h
      obtain ⟨hm, hir, hnv, hge, hall⟩ := ih hpw.2 p ir nv h
      refine ⟨List.mem_cons_of_mem _ hm, hir, hnv, hge, ?_⟩
      intro q hq hlt
      rcases List.mem_cons.mp hq with rfl | hq2
      · exact lt_of_not_le hnpv
      · exact hall q hq2 hlt

/-- If the breakeven scan exhausts the candidate list, every candidate
has strictly negative NPV. -/
lemma breakevenScan_notfound (irrF : List ℚ → PyFloat)
    (lp loan wacc : ℚ) (years : ℤ)
    (hy : years ≠ 0) (hw : ¬(1 + wacc = 0 ∧ 1 ≤ years)) :
    ∀ cands : List ℤ,
      breakevenScan irrF lp loan wacc years cands = some none →
      ∀ q ∈ cands, (simCore irrF (q : ℚ) lp loan wacc years).npv < 0 := by
  intro cands
  induction cands with
  | nil =>
    intro _ q hq
    simp at hq
  | cons c cs ih =>
    intro h q hq
    simp only [breakevenScan,
      simulate_financials_eq_some _ _ _ _ _ _ hy hw] at h
    by_cases hnpv : 0 ≤ (simCore irrF (c : ℚ) lp loan wacc years).npv
    · rw [if_pos hnpv] at h
      exact absurd h (by simp)
    · rw [if_neg hnpv] at h
      rcases List.mem_cons.mp hq with rfl | hq2
      · exact lt_of_not_le hnpv
      · exact ih h q hq2

/-- The default breakeven search range is 1000, 1050, ..., 5000: the
81 step-aligned prices from 1000 to 5000 inclusive. -/
lemma breakeven_range_eq :
    pyRange 1000 (5000 + 1) 50 =
      (List.range 81).map (fun i : ℕ => (1000 : ℤ) + 50 * (i : ℤ)) := by
  rfl

/-- The default breakeven candidates are strictly increasing. -/
lemma breakeven_range_pairwise :
    (pyRange 1000 (5000 + 1) 50).Pairwise (· < ·) := by
  rw [breakeven_range_eq]
  decide

/-- Any candidate other than the range minimum has its predecessor
`p - 50` in the range. -/
lemma breakeven_range_pred (p : ℤ) (hp : p ∈ pyRange 1000 (5000 + 1) 50)
    (hne : p ≠ 1000) :
    p - 50 ∈ pyRange 1000 (5000 + 1) 50 ∧ p - 50 < p := by
  rw [breakeven_range_eq] at hp ⊢
  obtain ⟨i, hi, rfl⟩ := List.mem_map.mp hp
  have hi81 : i < 81 := List.mem_range.mp hi
  have hi0 : i ≠ 0 := by
    rintro rfl
    simp at hne
  refine ⟨List.mem_map.mpr ⟨i - 1, List.mem_range.mpr (by omega), ?_⟩,
    by omega⟩
  have hcast : ((i - 1 : ℕ) : ℤ) = (i : ℤ) - 1 := by omega
  rw [hcast]
  ring

/-- Claim C1: the breakeven search scans the selling-price candidates
1000, 1050, ..., 5000 in ascending order and returns the first (hence
smallest) candidate whose NPV is non-negative, together with that
candidate's IRR and NPV; every smaller candidate has strictly negative
NPV, so the returned price is the range minimum or the NPV at
`price - step` is negative; if no candidate has non-negative NPV the
search returns the not-found result, and then every candidate's NPV is
negative. -/
theorem claim_c1_breakeven_first (irrF : List ℚ → PyFloat)
    (lp loan wacc : ℚ) (years : ℤ)
    (hy : years ≠ 0) (hw : ¬(1 + wacc = 0 ∧ 1 ≤ years)) :
    (∀ (p : ℤ) (ir : PyFloat) (nv : ℚ),
      find_breakeven_price irrF lp loan wacc years 1000 5000 50 =
          some (some (p, ir, nv)) →
      p ∈ pyRange 1000 (5000 + 1) 50 ∧
      ir = (simCore irrF (p : ℚ) lp loan wacc years).irr ∧
      nv = (simCore irrF (p : ℚ) lp loan wacc years).npv ∧
      0 ≤ nv ∧
      (∀ q ∈ pyRange 1000 (5000 + 1) 50, q < p →
        (simCore irrF (q : ℚ) lp loan wacc years).npv < 0) ∧
      (p = 1000 ∨
        (simCore irrF ((p - 50 : ℤ) : ℚ) lp loan wacc years).npv < 0)) ∧
    (find_breakeven_price irrF lp loan wacc years 1000 5000 50 = some none →
      ∀ q ∈ pyRange 1000 (5000 + 1) 50,
        (simCore irrF (q : ℚ) lp loan wacc years).npv < 0) := by
  constructor
  · intro p ir nv h
    obtain ⟨hm, hir, hnv, hge, hall⟩ :=
      breakevenScan_found irrF lp loan wacc years hy hw _
        breakeven_range_pairwise p ir nv h
    refine ⟨hm, hir, hnv, hge, hall, ?_⟩
    by_cases hp0 : p = 1000
    · exact Or.inl hp0
    · obtain ⟨hm2, hlt⟩ := breakeven_range_pred p hm hp0
      exact Or.inr (hall _ hm2 hlt)
  · intro h
    exact breakevenScan_notfound irrF lp loan wacc years hy hw _ h

/-- Claim C1 witness at the app's default slider values. -/
theorem claim_c1_breakeven_first_witness :
    (∀ (p : ℤ) (ir : PyFloat) (nv : ℚ),
      find_breakeven_price npfIrrModel 3000 (7 / 10) (11 / 100) 5
          1000 5000 50 = some (some (p, ir, nv)) →
      p ∈ pyRange 1000 (5000 + 1) 50 ∧
      ir = (simCore npfIrrModel (p : ℚ) 3000 (7 / 10) (11 / 100) 5).irr ∧
      nv = (simCore npfIrrModel (p : ℚ) 3000 (7 / 10) (11 / 100) 5).npv ∧
      0 ≤ nv ∧
      (∀ q ∈ pyRange 1000 (5000 + 1) 50, q < p →
        (simCore npfIrrModel (q : ℚ) 3000 (7 / 10) (11 / 100) 5).npv < 0) ∧
      (p = 1000 ∨
        (simCore npfIrrModel ((p - 50 : ℤ) : ℚ) 3000 (7 / 10) (11 / 100)
          5).npv < 0)) ∧
    (find_breakeven_price npfIrrModel 3000 (7 / 10) (11 / 100) 5
        1000 5000 50 = some none →
      ∀ q ∈ pyRange 1000 (5000 + 1) 50,
        (simCore npfIrrModel (q : ℚ) 3000 (7 / 10) (11 / 100) 5).npv < 0) :=
  claim_c1_breakeven_first npfIrrModel 3000 (7 / 10) (11 / 100) 5
    (by decide) (by norm_num)
